import Mathlib

/-!
# Verification of the mini-fuzz core

A shallow embedding of the mini-fuzz repository's core components:

* `src/detectors/detector.py` — the `VulnerabilityDetector` class: a stateful
  single-pass scanner over one transaction's EVM instruction trace
  (`reentrancy`, `tx_origin`, `reset_variables`);
* `src/fuzzer/mini_fuzzer.py` — the `MiniFuzzer` class: randomized input
  generation (`generate_inputs`), test-suite building (`generate_test_suite`),
  call execution (`execute_functions`) and the round loop (`run`).

Python conventions modelled explicitly:

* a structLog operand stack is a list whose **last** element is the top of
  stack; Python's `stack[-k]` raises `IndexError` when the list has fewer
  than `k` elements — modelled by `pyGetNeg` returning `none`;
* stack words are modelled as natural numbers (the Python code converts the
  hex strings with `int(_, 16)` where it needs numbers, and uses the raw
  strings only as opaque dictionary keys, so numbers are a faithful key/value
  domain);
* an uncaught Python exception is an `Except.error` / `none` outcome and
  aborts whatever loop it escapes from;
* a Python `dict` is an insertion-ordered association list with unique keys
  (`dictUpsert`), a Python `set` is a duplicate-free list (`setAdd`); the
  detector only ever asks "is there an element satisfying p" of either, so
  iteration order is immaterial to every theorem below;
* the nondeterminism of the `random` module and of the blockchain collaborator
  is resolved by explicit oracle parameters (`Sampler`, `Round`).
-/

namespace MiniFuzz

/-- One EVM instruction event from a structLog: opcode mnemonic, program
counter and the operand stack at that point (top of stack last). -/
structure Instr where
  op : String
  pc : Nat
  stack : List Nat
  deriving DecidableEq

/-- Python negative indexing `l[-k]`: `some` element when `1 ≤ k ≤ l.length`,
`none` (an `IndexError`) otherwise. -/
def pyGetNeg (l : List Nat) (k : Nat) : Option Nat :=
  if 1 ≤ k ∧ k ≤ l.length then l.get? (l.length - k) else none

/-- The mutable state of `VulnerabilityDetector` (`__init__`):
`__sloads` maps a storage slot to the pc of its most recent read,
`__calls` is the set of pcs of risky external calls,
`__flag` is the "already reported" latch. -/
structure DetState where
  sloads : List (Nat × Nat)
  calls : List Nat
  flag : Bool
  deriving DecidableEq

/-- The state of a freshly constructed detector (`__init__`). -/
def detInit : DetState := ⟨[], [], false⟩

/-- Python `d[k] = v` on an insertion-ordered dict: overwrite the binding in
place when the key is present, append otherwise. -/
def dictUpsert (d : List (Nat × Nat)) (k v : Nat) : List (Nat × Nat) :=
  if d.any (fun p => p.1 = k) then d.map (fun p => if p.1 = k then (k, v) else p)
  else d ++ [(k, v)]

/-- Python `k in d` for the sloads dict. -/
def dictMem (d : List (Nat × Nat)) (k : Nat) : Bool :=
  d.any (fun p => p.1 = k)

/-- Python `s.add(x)` on a set, as a duplicate-free list. -/
def setAdd (s : List Nat) (x : Nat) : List Nat :=
  if x ∈ s then s else s ++ [x]

/-- The reentrancy finding (`SCWE-046`) as logged by `detector.py`. -/
def reentrancyMsg : String := "SCWE-046: Reentrancy Attack detected!"

/-- The unsafe-authorization finding (`SCWE-018`) as logged by `detector.py`. -/
def txOriginMsg : String := "SCWE-018: Use of tx.origin for Authorization detected!"

/-- `VulnerabilityDetector.reentrancy(instruction)`: returns the updated state
together with the findings logged for this instruction, or `Except.error` when
a stack access raises `IndexError`.

Mirrors the Python `if/elif` chain:
* `SLOAD`: record `sloads[stack[-1]] = pc`;
* `CALL` (only when `sloads` is nonempty): read `gas = stack[-1]` and
  `value = stack[-3]`; when `gas > 2300 and value > 0` add the pc to `calls`,
  then report once and set the latch if some recorded read pc is `< pc`
  (the `return` inside the loop caps this branch at one report per call);
* `SSTORE` (only when `calls` is nonempty): when `stack[-1]` is a previously
  read slot, report once if the latch is clear and some risky call pc is
  `< pc` (the `return` caps this at one report per write; the latch is read
  but never written here). -/
def reentrancy (s : DetState) (i : Instr) : Except Unit (DetState × List String) :=
  if i.op = "SLOAD" then
    match pyGetNeg i.stack 1 with
    | none => .error ()
    | some slot => .ok ({ s with sloads := dictUpsert s.sloads slot i.pc }, [])
  else if i.op = "CALL" ∧ s.sloads ≠ [] then
    match pyGetNeg i.stack 1 with
    | none => .error ()
    | some gas =>
      match pyGetNeg i.stack 3 with
      | none => .error ()
      | some value =>
        if 2300 < gas ∧ 0 < value then
          let hit := s.sloads.any (fun p => p.2 < i.pc)
          .ok ({ s with calls := setAdd s.calls i.pc, flag := s.flag || hit },
               if hit then [reentrancyMsg] else [])
        else .ok (s, [])
  else if i.op = "SSTORE" ∧ s.calls ≠ [] then
    match pyGetNeg i.stack 1 with
    | none => .error ()
    | some slot =>
      if dictMem s.sloads slot then
        .ok (s, if !s.flag && s.calls.any (fun pc => pc < i.pc) then [reentrancyMsg] else [])
      else .ok (s, [])
  else .ok (s, [])

/-- `VulnerabilityDetector.tx_origin(instruction)`: reports unconditionally on
the `ORIGIN` opcode, touches no state and cannot fail. -/
def tx_origin (i : Instr) : List String :=
  if i.op = "ORIGIN" then [txOriginMsg] else []

/-- One loop iteration of `MiniFuzzer.execute_functions`'s trace scan:
`reentrancy` then `tx_origin` on the same instruction; an exception raised by
`reentrancy` skips `tx_origin`. -/
def analyzeInstr (s : DetState) (i : Instr) : Except Unit (DetState × List String) :=
  match reentrancy s i with
  | .error e => .error e
  | .ok (s', fs) => .ok (s', fs ++ tx_origin i)

/-- Feeding a whole trace through the detector, in order. Returns the findings
logged so far paired with `some` final state, or `none` when an instruction
raised (further instructions are then not processed). -/
def runTrace (s : DetState) (tr : List Instr) : Option DetState × List String :=
  match tr with
  | [] => (some s, [])
  | i :: rest =>
    match analyzeInstr s i with
    | .error _ => (none, [])
    | .ok (s', fs) =>
      let res := runTrace s' rest
      (res.1, fs ++ res.2)

/-- `VulnerabilityDetector.reset_variables()`: empties both containers and
clears the latch, discarding the previous state entirely. -/
def reset_variables (_ : DetState) : DetState := detInit

/-! ## Input generation (`MiniFuzzer.generate_inputs`) -/

/-- One declared function parameter from the AST:
`param["typeDescriptions"]["typeString"]`. -/
structure Param where
  typeString : String
  deriving DecidableEq

/-- A generated argument value. `vNone` is Python's `None`, the initial value
of `value` that survives when no type branch matches. -/
inductive Value where
  | vInt (n : Nat)
  | vAddr (s : String)
  | vStr (s : String)
  | vBool (b : Bool)
  | vBytes (s : String)
  | vNone
  deriving DecidableEq

/-- Oracle resolving the `random` module's draws and the external
`Web3.to_checksum_address` transform (web3 is a black-box collaborator).
`randInt a b` stands for `random.randint(a, b)`, `randHex k` for `k` random
hex digits, `randLetters k` for `k` random ASCII letters. -/
structure Sampler where
  randInt : Nat → Nat → Nat
  randHex : Nat → String
  randLetters : Nat → String
  randBool : Bool
  toChecksum : String → String

/-- Python `param_type.startsWith('bytes')`, spelled out on the character
list so that it evaluates on concrete inputs. -/
def startsWithBytes (t : String) : Bool :=
  "bytes".data.isPrefixOf t.data

/-- Python `param_type.replace('bytes', '')` for the fixed pattern `'bytes'`:
remove every (non-overlapping, leftmost-first) occurrence of `bytes`. -/
def pyReplaceBytes : List Char → List Char
  | 'b' :: 'y' :: 't' :: 'e' :: 's' :: rest => pyReplaceBytes rest
  | c :: rest => c :: pyReplaceBytes rest
  | [] => []

/-- Python `int(s)` on the characters that occur as `bytesN` suffixes:
the number on a nonempty all-digit string, `ValueError` (`none`) otherwise. -/
def pyIntNat (s : List Char) : Option Nat :=
  if s ≠ [] ∧ s.all Char.isDigit then
    some (s.foldl (fun n c => n * 10 + (c.toNat - 48)) 0)
  else none

/-- The per-parameter body of the `for param in param_list` loop in
`MiniFuzzer.generate_inputs`: dispatch on the type string, in source order.
An unmatched type leaves `value = None`, which is appended as is; only the
`bytes` branch can raise (via `int` on a malformed suffix). -/
def genValue (smp : Sampler) (t : String) : Except Unit Value :=
  if t = "uint256" ∨ t = "uint" then .ok (.vInt (smp.randInt 0 (2 ^ 256 - 1)))
  else if t = "address" then .ok (.vAddr (smp.toChecksum ("0x" ++ smp.randHex 40)))
  else if t = "string" then .ok (.vStr (smp.randLetters (smp.randInt 5 15)))
  else if t = "bool" then .ok (.vBool smp.randBool)
  else if startsWithBytes t then
    if 5 < t.length then
      match pyIntNat (pyReplaceBytes t.data) with
      | none => .error ()
      | some size => .ok (.vBytes ("0x" ++ smp.randHex (size * 2)))
    else .ok (.vBytes ("0x" ++ smp.randHex (smp.randInt 1 32 * 2)))
  else .ok .vNone

/-- The loop of `generate_inputs` inside its `try`: builds the value list in
order, propagating the first exception. -/
def genValues (smp : Sampler) : List Param → Except Unit (List Value)
  | [] => .ok []
  | p :: rest =>
    match genValue smp p.typeString with
    | .error e => .error e
    | .ok v =>
      match genValues smp rest with
      | .error e => .error e
      | .ok vs => .ok (v :: vs)

/-- `MiniFuzzer.generate_inputs(param_list)`: the `try/except` wrapper —
`None` when any parameter raised, the full list otherwise. -/
def generate_inputs (smp : Sampler) (ps : List Param) : Option (List Value) :=
  match genValues smp ps with
  | .error _ => none
  | .ok vs => some vs

/-! ## Test-suite building (`MiniFuzzer.generate_test_suite`) -/

/-- A well-formed `FunctionDefinition` node: the fields `generate_test_suite`
reads (`kind`, `name`, `parameters.parameters`, `stateMutability`). -/
structure FnDef where
  kind : String
  name : String
  params : List Param
  stateMutability : String

/-- A child node of a `ContractDefinition`. `malformedChild` stands for any
node on which one of the dictionary lookups of `generate_test_suite` raises
`KeyError` (e.g. a `FunctionDefinition` missing a required field);
`otherChild` is a node whose `nodeType` is not `FunctionDefinition`. -/
inductive ContractChild where
  | fnDef (f : FnDef)
  | otherChild
  | malformedChild

/-- A top-level AST node: a `ContractDefinition` with its children, or any
other node type (skipped by the walk). -/
inductive TopNode where
  | contractDef (children : List ContractChild)
  | otherTop

/-- The contract AST: `ast["nodes"]`. -/
structure Ast where
  nodes : List TopNode

/-- One planned function call: name, generated inputs (`None` when
`generate_inputs` failed for this function) and the ether value. -/
structure FnPlan where
  name : String
  inputs : Option (List Value)
  value : Nat

/-- Building the plan dict for one ordinary function: random ether value in
`[10^15, 5 * 10^18]` for a payable function, `0` otherwise. -/
def planOfFn (smp : Sampler) (f : FnDef) : FnPlan :=
  { name := f.name
    inputs := generate_inputs smp f.params
    value := if f.stateMutability = "payable" then smp.randInt (10 ^ 15) (5 * 10 ^ 18) else 0 }

/-- The inner walk over a contract's child nodes: append a plan for each
`kind == "function"` definition, set the constructor inputs for the
`kind == "constructor"` definition, raise on a malformed node. -/
def suiteChildren (smp : Sampler) (acc : List FnPlan × Option (List Value)) :
    List ContractChild → Except Unit (List FnPlan × Option (List Value))
  | [] => .ok acc
  | .malformedChild :: _ => .error ()
  | .otherChild :: rest => suiteChildren smp acc rest
  | .fnDef f :: rest =>
    if f.kind = "function" then
      suiteChildren smp (acc.1 ++ [planOfFn smp f], acc.2) rest
    else if f.kind = "constructor" then
      suiteChildren smp (acc.1, generate_inputs smp f.params) rest
    else suiteChildren smp acc rest

/-- The outer walk over `ast["nodes"]`, descending into every
`ContractDefinition`. -/
def suiteNodes (smp : Sampler) (acc : List FnPlan × Option (List Value)) :
    List TopNode → Except Unit (List FnPlan × Option (List Value))
  | [] => .ok acc
  | .contractDef cs :: rest =>
    match suiteChildren smp acc cs with
    | .error e => .error e
    | .ok acc' => suiteNodes smp acc' rest
  | .otherTop :: rest => suiteNodes smp acc rest

/-- `MiniFuzzer.generate_test_suite()`: `(functions, constructor_inputs)`,
with `(None, None)` when the walk raised. The first component is `none`
exactly on failure; the second is also `none` when the contract has no
constructor or its input generation failed. -/
def generate_test_suite (smp : Sampler) (ast : Ast) :
    Option (List FnPlan) × Option (List Value) :=
  match suiteNodes smp ([], none) ast.nodes with
  | .error _ => (none, none)
  | .ok (fns, ctor) => (some fns, ctor)

/-! ## Call execution and the round loop
(`MiniFuzzer.execute_functions`, `MiniFuzzer.run`) -/

/-- The chain collaborator's response to one planned call, as observed by
`execute_functions`:
* `notMined` — `execute_transaction` returned `None` (its `try/except`
  caught any failure, including `len(None)` on a plan whose input generation
  failed);
* `reverted` — a receipt was returned but `debug_transaction(...).failed`
  is true, so the trace is not analyzed;
* `analyzed tr` — the transaction succeeded and its structLogs are `tr`. -/
inductive CallOutcome where
  | notMined
  | reverted
  | analyzed (tr : List Instr)

/-- One iteration of the `for function in functions` loop in
`execute_functions`: only an analyzed call touches the detector — its trace
is fed through, then `reset_variables` runs; an exception escaping the trace
scan propagates (`none`). Skipped and reverted calls leave the state as is. -/
def executeCall (s : DetState) (c : CallOutcome) : Option DetState × List String :=
  match c with
  | .notMined => (some s, [])
  | .reverted => (some s, [])
  | .analyzed tr =>
    match runTrace s tr with
    | (some s', fs) => (some (reset_variables s'), fs)
    | (none, fs) => (none, fs)

/-- `MiniFuzzer.execute_functions`, abstracted over the chain's responses:
processes the calls in order, stopping (and re-raising) at the first uncaught
exception. -/
def executeCalls (s : DetState) (cs : List CallOutcome) : Option DetState × List String :=
  match cs with
  | [] => (some s, [])
  | c :: rest =>
    match executeCall s c with
    | (none, fs) => (none, fs)
    | (some s', fs) =>
      let res := executeCalls s' rest
      (res.1, fs ++ res.2)

/-- The chain collaborator's behaviour during one round: whether
`deploy_smart_contract` returns a contract (it catches its own exceptions and
returns `None` on failure), and the outcome of the `i`-th executed call. -/
structure Round where
  deploySucceeds : Bool
  outcome : Nat → CallOutcome

/-- The externally visible requests a round makes of the chain collaborator,
plus an uncaught-exception marker. -/
inductive RunEvent where
  | deployRequested (ctorArgs : Option (List Value))
  | crashed
  deriving DecidableEq

/-- One iteration of the `for test in range(...)` loop in `MiniFuzzer.run`:
build the suite, then request deployment **unconditionally** (with
`constructor_args = None` when building failed), then — if a contract came
back — run `execute_functions`. When building failed, `functions` is `None`
and `for function in None` raises `TypeError`, aborting the whole run. -/
def runRound (smp : Sampler) (ast : Ast) (r : Round) (s : DetState) :
    Option DetState × List String × List RunEvent :=
  match generate_test_suite smp ast with
  | (some fns, ctor) =>
    if r.deploySucceeds then
      match executeCalls s ((List.range fns.length).map r.outcome) with
      | (some s', fs) => (some s', fs, [RunEvent.deployRequested ctor])
      | (none, fs) => (none, fs, [RunEvent.deployRequested ctor, RunEvent.crashed])
    else (some s, [], [RunEvent.deployRequested ctor])
  | (none, _) =>
    if r.deploySucceeds then (none, [], [RunEvent.deployRequested none, RunEvent.crashed])
    else (some s, [], [RunEvent.deployRequested none])

/-- The round loop of `MiniFuzzer.run`, threading the single shared detector
instance; an uncaught exception stops the remaining rounds. -/
def runRounds (smp : Sampler) (ast : Ast) (rounds : List Round) (s : DetState) :
    Option DetState × List String × List RunEvent :=
  match rounds with
  | [] => (some s, [], [])
  | r :: rest =>
    match runRound smp ast r s with
    | (none, fs, evs) => (none, fs, evs)
    | (some s', fs, evs) =>
      let res := runRounds smp ast rest s'
      (res.1, fs ++ res.2.1, evs ++ res.2.2)

/-- `MiniFuzzer.run()`: the detector starts in its `__init__` state. -/
def run (smp : Sampler) (ast : Ast) (rounds : List Round) :
    Option DetState × List String × List RunEvent :=
  runRounds smp ast rounds detInit

/-! ## Reference semantics for the pristine-state invariant

Modelled from the spec: "After `reset`, replaying any previously-analyzed
trace produces identical findings to a brand-new detector instance" /
"every trace analysis starts from a pristine detector state". The
definitions below re-analyze every trace on a brand-new detector
(`detInit`) instead of threading the shared instance; comparing them with
`run` settles the leakage question. -/

/-- Findings of a call sequence when each analyzed trace is run on a
brand-new detector; `none` when some trace raises. -/
def freshCalls : List CallOutcome → Option Unit × List String
  | [] => (some (), [])
  | c :: rest =>
    match c with
    | .analyzed tr =>
      match runTrace detInit tr with
      | (some _, fs) =>
        let res := freshCalls rest
        (res.1, fs ++ res.2)
      | (none, fs) => (none, fs)
    | _ => freshCalls rest

/-- One round under the brand-new-detector-per-trace semantics. -/
def freshRound (smp : Sampler) (ast : Ast) (r : Round) :
    Option Unit × List String × List RunEvent :=
  match generate_test_suite smp ast with
  | (some fns, ctor) =>
    if r.deploySucceeds then
      match freshCalls ((List.range fns.length).map r.outcome) with
      | (some _, fs) => (some (), fs, [RunEvent.deployRequested ctor])
      | (none, fs) => (none, fs, [RunEvent.deployRequested ctor, RunEvent.crashed])
    else (some (), [], [RunEvent.deployRequested ctor])
  | (none, _) =>
    if r.deploySucceeds then (none, [], [RunEvent.deployRequested none, RunEvent.crashed])
    else (some (), [], [RunEvent.deployRequested none])

/-- The full run under the brand-new-detector-per-trace semantics. -/
def freshRun (smp : Sampler) (ast : Ast) : List Round → Option Unit × List String × List RunEvent
  | [] => (some (), [], [])
  | r :: rest =>
    match freshRound smp ast r with
    | (none, fs, evs) => (none, fs, evs)
    | (some _, fs, evs) =>
      let res := freshRun smp ast rest
      (res.1, fs ++ res.2.1, evs ++ res.2.2)

/-! ## Auxiliary predicates used by the theorems -/

/-- A concrete sampler resolving every random draw deterministically, used to
evaluate the generator at explicit inputs. -/
def constSampler : Sampler :=
  { randInt := fun a _ => a
    randHex := fun _ => ""
    randLetters := fun _ => ""
    randBool := false
    toChecksum := fun s => s }

/-- The type strings for which `generate_inputs` has a matching branch. -/
def recognizedType (t : String) : Bool :=
  t = "uint256" || t = "uint" || t = "address" || t = "string" || t = "bool" ||
  startsWithBytes t

/-- The condition under which the per-parameter body of `generate_inputs`
raises: a `bytes`-prefixed type longer than five characters whose
`bytes`-stripped remainder is not a number (`int` raises `ValueError`). -/
def genRaises (t : String) : Bool :=
  startsWithBytes t && decide (5 < t.length) &&
  (pyIntNat (pyReplaceBytes t.data)).isNone

/-- The instructions on which the detector's stack accesses raise
`IndexError`: the opcode's branch is live and the operand stack is shorter
than the deepest operand the branch reads. -/
def insufficientStack (s : DetState) (i : Instr) : Prop :=
  (i.op = "SLOAD" ∧ i.stack = []) ∨
  (i.op = "CALL" ∧ s.sloads ≠ [] ∧ i.stack.length < 3) ∨
  (i.op = "SSTORE" ∧ s.calls ≠ [] ∧ i.stack = [])

/-! ## Basic lemmas about the embedding -/

theorem pyGetNeg_eq_none_iff (l : List Nat) (k : Nat) :
    pyGetNeg l k = none ↔ k = 0 ∨ l.length < k := by
  unfold pyGetNeg
  by_cases h : 1 ≤ k ∧ k ≤ l.length
  · rw [if_pos h]
    have hlt : l.length - k < l.length := by omega
    simp [List.get?_eq_get hlt]
    omega
  · rw [if_neg h]
    simp
    omega

theorem pyGetNeg_one_cons (x : Nat) (l : List Nat) :
    ∃ v, pyGetNeg (x :: l) 1 = some v := by
  have h : ¬(pyGetNeg (x :: l) 1 = none) := by
    rw [pyGetNeg_eq_none_iff]
    simp
  cases hv : pyGetNeg (x :: l) 1 with
  | none => exact absurd hv h
  | some v => exact ⟨v, rfl⟩

/-! ## Claim C1 -/

/-- Claim C1 is false on the code: after a storage read at pc 10, a risky
call at pc 20 reports and sets the latch, yet a second risky call at pc 30
in the same trace reports again — the call-triggered branch never consults
the latch, so the finding is reported twice per trace, not exactly once. -/
theorem c1_second_call_reports_again :
    (runTrace detInit [⟨"SLOAD", 10, [1]⟩, ⟨"CALL", 20, [5, 7, 3000]⟩]).1 =
      some ⟨[(1, 10)], [20], true⟩ ∧
    (runTrace detInit [⟨"SLOAD", 10, [1]⟩, ⟨"CALL", 20, [5, 7, 3000]⟩,
        ⟨"CALL", 30, [5, 7, 3000]⟩]).2.count reentrancyMsg = 2 ∧
    (2 : Nat) ≠ 1 := by
  refine ⟨rfl, rfl, by decide⟩

/-- Claim C1 (amended): once a storage read has been recorded, **every**
external-call instruction with gas > 2300 and value > 0 whose pc is strictly
greater than some recorded read pc causes the reentrancy finding to be
reported — exactly once per such call (scanning stops at the first matching
read) — and sets the "already reported" latch; the latch does not suppress
later call-triggered reports (it only suppresses write-triggered ones). -/
theorem c1_call_branch_reports_each_risky_call (s : DetState) (i : Instr)
    (hop : i.op = "CALL") (hsl : s.sloads ≠ [])
    (gas value : Nat)
    (hg : pyGetNeg i.stack 1 = some gas) (hv : pyGetNeg i.stack 3 = some value)
    (hgas : 2300 < gas) (hval : 0 < value)
    (hprior : s.sloads.any (fun p => p.2 < i.pc) = true) :
    reentrancy s i =
      .ok ({ s with calls := setAdd s.calls i.pc, flag := true }, [reentrancyMsg]) := by
  have h1 : ¬(i.op = "SLOAD") := by rw [hop]; decide
  have h2 : i.op = "CALL" ∧ s.sloads ≠ [] := ⟨hop, hsl⟩
  unfold reentrancy
  rw [if_neg h1, if_pos h2, hg, hv]
  dsimp only
  rw [if_pos ⟨hgas, hval⟩]
  simp [hprior]

/-- Witness for the amended C1: a concrete risky call at pc 30, in a state
where the latch is already set (a first report happened), still reports. -/
theorem c1_call_branch_witness :
    reentrancy ⟨[(1, 10)], [20], true⟩ ⟨"CALL", 30, [5, 7, 3000]⟩ =
      .ok (⟨[(1, 10)], [20, 30], true⟩, [reentrancyMsg]) := by
  have h := c1_call_branch_reports_each_risky_call ⟨[(1, 10)], [20], true⟩
    ⟨"CALL", 30, [5, 7, 3000]⟩ rfl (by decide) 3000 5 rfl rfl (by decide) (by decide)
    (by decide)
  exact h

/-! ## Claim C2 -/

/-- Claim C2 is false on the code: with risky calls recorded at pcs 20 and 25,
the latch clear, and slot 1 previously read, a storage write at pc 30 on
slot 1 has two qualifying call pcs, but the write-triggered branch reports
only once (it returns after the first match), not once per qualifying pc. -/
theorem c2_write_reports_once_not_per_call :
    (runTrace detInit [⟨"SLOAD", 50, [1]⟩, ⟨"CALL", 20, [5, 7, 3000]⟩,
        ⟨"CALL", 25, [5, 7, 3000]⟩]).1 = some ⟨[(1, 50)], [20, 25], false⟩ ∧
    (reentrancy ⟨[(1, 50)], [20, 25], false⟩ ⟨"SSTORE", 30, [1]⟩ =
      .ok (⟨[(1, 50)], [20, 25], false⟩, [reentrancyMsg])) ∧
    ([reentrancyMsg].count reentrancyMsg = 1 ∧ (1 : Nat) ≠ 2) := by
  refine ⟨rfl, rfl, rfl, by decide⟩

/-- Claim C2 (amended): when a storage write arrives after at least one risky
call has been recorded and the write's slot is present in the recorded-reads
map, the detector reports the reentrancy finding **at most once per write**:
exactly once when the latch is clear and some recorded risky-call pc is
strictly less than the write's pc (the scan returns at the first match), and
never otherwise; the branch leaves the whole detector state — including the
latch — unchanged. -/
theorem c2_write_branch_at_most_one_report (s : DetState) (i : Instr)
    (hop : i.op = "SSTORE") (hc : s.calls ≠ [])
    (slot : Nat) (hstk : pyGetNeg i.stack 1 = some slot)
    (hmem : dictMem s.sloads slot = true) :
    reentrancy s i =
      .ok (s, if !s.flag && s.calls.any (fun pc => pc < i.pc) then [reentrancyMsg]
              else []) := by
  have h1 : ¬(i.op = "SLOAD") := by rw [hop]; decide
  have h2 : ¬(i.op = "CALL" ∧ s.sloads ≠ []) := fun h => by
    rw [hop] at h
    exact absurd h.1 (by decide)
  have h3 : i.op = "SSTORE" ∧ s.calls ≠ [] := ⟨hop, hc⟩
  unfold reentrancy
  rw [if_neg h1, if_neg h2, if_pos h3, hstk]
  dsimp only
  rw [if_pos hmem]

/-- Witness for the amended C2: the concrete write of the counterexample
state reports exactly once and leaves the state untouched. -/
theorem c2_write_branch_witness :
    reentrancy ⟨[(1, 50)], [20, 25], false⟩ ⟨"SSTORE", 30, [1]⟩ =
      .ok (⟨[(1, 50)], [20, 25], false⟩, [reentrancyMsg]) := by
  have h := c2_write_branch_at_most_one_report ⟨[(1, 50)], [20, 25], false⟩
    ⟨"SSTORE", 30, [1]⟩ rfl (by decide) 1 rfl rfl
  exact h

/-! ## Claim C3 -/

theorem genValue_error_iff (smp : Sampler) (t : String) :
    genValue smp t = .error () ↔ genRaises t = true := by
  unfold genValue genRaises
  by_cases h1 : t = "uint256" ∨ t = "uint"
  · rw [if_pos h1]
    have hb : startsWithBytes t = false := by rcases h1 with rfl | rfl <;> rfl
    simp [hb]
  · rw [if_neg h1]
    by_cases h2 : t = "address"
    · rw [if_pos h2]
      have hb : startsWithBytes t = false := by rw [h2]; rfl
      simp [hb]
    · rw [if_neg h2]
      by_cases h3 : t = "string"
      · rw [if_pos h3]
        have hb : startsWithBytes t = false := by rw [h3]; rfl
        simp [hb]
      · rw [if_neg h3]
        by_cases h4 : t = "bool"
        · rw [if_pos h4]
          have hb : startsWithBytes t = false := by rw [h4]; rfl
          simp [hb]
        · rw [if_neg h4]
          by_cases h5 : startsWithBytes t = true
          · rw [if_pos h5]
            by_cases h6 : 5 < t.length
            · rw [if_pos h6]
              cases hp : pyIntNat (pyReplaceBytes t.data) with
              | none => simp [h5, h6, hp]
              | some size => simp [h5, h6, hp]
            · rw [if_neg h6]
              simp [h5, h6]
          · rw [if_neg h5]
            have hb : startsWithBytes t = false := by
              cases hbb : startsWithBytes t
              · rfl
              · exact absurd hbb h5
            simp [hb]

theorem genValue_unrecognized (smp : Sampler) (t : String)
    (h : recognizedType t = false) : genValue smp t = .ok .vNone := by
  unfold recognizedType at h
  simp only [Bool.or_eq_false_iff, decide_eq_false_iff_not] at h
  obtain ⟨⟨⟨⟨⟨h1, h2⟩, h3⟩, h4⟩, h5⟩, h6⟩ := h
  unfold genValue
  rw [if_neg (fun hc => hc.elim h1 h2), if_neg h3, if_neg h4, if_neg h5,
    if_neg (by simp [h6])]

theorem genValues_error_iff (smp : Sampler) (ps : List Param) :
    genValues smp ps = .error () ↔
      ps.any (fun p => genRaises p.typeString) = true := by
  induction ps with
  | nil => simp [genValues]
  | cons p rest ih =>
    simp only [genValues, List.any_cons, Bool.or_eq_true]
    cases hg : genValue smp p.typeString with
    | error e =>
      cases e
      have hr := (genValue_error_iff smp p.typeString).mp hg
      simp [hg, hr]
    | ok v =>
      have hr : ¬genRaises p.typeString = true := fun hh => by
        have hcontra := (genValue_error_iff smp p.typeString).mpr hh
        rw [hg] at hcontra
        exact Except.noConfusion hcontra
      cases hrest : genValues smp rest with
      | error e =>
        cases e
        have hany := ih.mp hrest
        simp [hg, hrest, hany]
      | ok vs =>
        have hnany : ¬rest.any (fun p => genRaises p.typeString) = true :=
          fun hh => by
            have hcontra := ih.mpr hh
            rw [hrest] at hcontra
            exact Except.noConfusion hcontra
        simp [hg, hrest, hr, hnany]

theorem genValues_ok_spec (smp : Sampler) (ps : List Param) (vs : List Value)
    (h : genValues smp ps = .ok vs) :
    vs.length = ps.length ∧
      ∀ pv ∈ ps.zip vs, recognizedType pv.1.typeString = false →
        pv.2 = Value.vNone := by
  induction ps generalizing vs with
  | nil =>
    simp only [genValues] at h
    cases h
    simp
  | cons p rest ih =>
    simp only [genValues] at h
    cases hg : genValue smp p.typeString with
    | error e => rw [hg] at h; exact Except.noConfusion h
    | ok v =>
      rw [hg] at h
      cases hrest : genValues smp rest with
      | error e => rw [hrest] at h; exact Except.noConfusion h
      | ok vs' =>
        rw [hrest] at h
        cases h
        obtain ⟨hlen, hzip⟩ := ih vs' hrest
        refine ⟨by simp [hlen], ?_⟩
        intro pv hpv hrec
        rcases List.mem_cons.mp hpv with rfl | hpv'
        · have hnone := genValue_unrecognized smp p.typeString hrec
          rw [hg] at hnone
          injection hnone with hv
        · exact hzip pv hpv' hrec

/-- Claim C3 is false on the code: for the unrecognized parameter type
`int256`, input generation does **not** fail — it succeeds and returns a
list containing the null placeholder `None` for that parameter. -/
theorem c3_unrecognized_type_yields_null :
    generate_inputs constSampler [⟨"int256"⟩] ≠ none ∧
    generate_inputs constSampler [⟨"int256"⟩] = some [Value.vNone] := by
  refine ⟨?_, rfl⟩
  intro h
  rw [show generate_inputs constSampler [⟨"int256"⟩] = some [Value.vNone] from rfl] at h
  exact Option.noConfusion h

/-- Claim C3 (amended): a parameter whose declared type is unrecognized (and
not `bytes`-prefixed) never makes input generation fail: whenever no
parameter type raises (`genRaises`), generation succeeds with a list of the
same length that holds the null placeholder `None` at every
unrecognized-type position; and when some parameter's type does raise, the
whole parameter list fails atomically (no partial list is returned). -/
theorem c3_generation_amended (smp : Sampler) (ps : List Param) :
    (ps.any (fun p => genRaises p.typeString) = true →
      generate_inputs smp ps = none) ∧
    (ps.any (fun p => genRaises p.typeString) = false →
      ∃ vs, generate_inputs smp ps = some vs ∧ vs.length = ps.length ∧
        ∀ pv ∈ ps.zip vs, recognizedType pv.1.typeString = false →
          pv.2 = Value.vNone) := by
  constructor
  · intro h
    unfold generate_inputs
    rw [(genValues_error_iff smp ps).mpr h]
  · intro h
    unfold generate_inputs
    cases hg : genValues smp ps with
    | error e =>
      cases e
      rw [genValues_error_iff] at hg
      rw [hg] at h
      exact absurd h (by simp)
    | ok vs =>
      exact ⟨vs, rfl, genValues_ok_spec smp ps vs hg⟩

/-- Witness for the amended C3: the raising type `bytesXY` fails atomically,
while the unrecognized type `int256` yields the `None` placeholder. -/
theorem c3_generation_amended_witness :
    generate_inputs constSampler [⟨"bytesXY"⟩, ⟨"bool"⟩] = none ∧
    ∃ vs, generate_inputs constSampler [⟨"int256"⟩] = some vs ∧
      vs.length = 1 ∧
      ∀ pv ∈ ([⟨"int256"⟩] : List Param).zip vs,
        recognizedType pv.1.typeString = false → pv.2 = Value.vNone := by
  constructor
  · exact (c3_generation_amended constSampler [⟨"bytesXY"⟩, ⟨"bool"⟩]).1 (by rfl)
  · have h := (c3_generation_amended constSampler [⟨"int256"⟩]).2 (by rfl)
    simpa using h

/-! ## Claim C4 -/

/-- Claim C4 names a real bug in the code: when test-plan building fails
(`generate_test_suite` returns its documented failure value `(None, None)`),
the round is **not** skipped — `run` still requests deployment (with null
constructor arguments), and when that deployment succeeds it iterates over
the `None` function list, raising `TypeError` and aborting the entire run
(the second round below never happens), instead of proceeding to the next
round as the spec requires. -/
theorem c4_build_failure_not_skipped :
    generate_test_suite constSampler ⟨[TopNode.contractDef [ContractChild.malformedChild]]⟩ =
      (none, none) ∧
    run constSampler ⟨[TopNode.contractDef [ContractChild.malformedChild]]⟩
        [⟨true, fun _ => CallOutcome.notMined⟩, ⟨true, fun _ => CallOutcome.notMined⟩] =
      (none, [], [RunEvent.deployRequested none, RunEvent.crashed]) :=
  ⟨rfl, rfl⟩

/-! ## Claim C5 -/

/-- Claim C5 is false on the code: a storage-read instruction whose operand
stack is empty makes the detector raise `IndexError` rather than being
skipped, and the raised exception aborts the scan of the rest of the trace
(the `ORIGIN` finding of the next instruction is lost). -/
theorem c5_short_stack_raises :
    analyzeInstr detInit ⟨"SLOAD", 5, []⟩ = .error () ∧
    runTrace detInit [⟨"SLOAD", 5, []⟩, ⟨"ORIGIN", 6, []⟩] = (none, []) :=
  ⟨rfl, rfl⟩

/-- Claim C5 (amended): processing an instruction raises exactly when the
instruction's live branch reads deeper into the operand stack than the stack
holds — an `SLOAD` or a guarded `SSTORE` with an empty stack, or a guarded
`CALL` with fewer than three operands; every other instruction is processed
without failure (malformed data outside these cases is skipped). -/
theorem c5_detector_raises_iff_short_stack (s : DetState) (i : Instr) :
    analyzeInstr s i = .error () ↔ insufficientStack s i := by
  have hiff : reentrancy s i = .error () ↔ insufficientStack s i := by
    have hone : pyGetNeg i.stack 1 = none ↔ i.stack = [] := by
      rw [pyGetNeg_eq_none_iff]
      cases i.stack <;> simp
    have hthree : pyGetNeg i.stack 3 = none ↔ i.stack.length < 3 := by
      rw [pyGetNeg_eq_none_iff]
      omega
    unfold reentrancy insufficientStack
    by_cases h1 : i.op = "SLOAD"
    · rw [if_pos h1]
      have h2 : ¬i.op = "CALL" := by rw [h1]; decide
      have h3 : ¬i.op = "SSTORE" := by rw [h1]; decide
      cases hp : pyGetNeg i.stack 1 with
      | none => simp [h1, h2, h3, hone.mp hp]
      | some slot =>
        have hne : ¬i.stack = [] := fun hh => by
          rw [hone.mpr hh] at hp
          exact Option.noConfusion hp
        simp [h1, h2, h3, hne]
    · rw [if_neg h1]
      by_cases h2 : i.op = "CALL" ∧ s.sloads ≠ []
      · rw [if_pos h2]
        have h3 : ¬i.op = "SSTORE" := by rw [h2.1]; decide
        cases hp1 : pyGetNeg i.stack 1 with
        | none =>
          have hlen : i.stack.length < 3 := by
            rw [pyGetNeg_eq_none_iff] at hp1
            omega
          simp [h1, h2.1, h2.2, h3, hlen]
        | some gas =>
          cases hp3 : pyGetNeg i.stack 3 with
          | none =>
            have hlen := hthree.mp hp3
            simp [h1, h2.1, h2.2, h3, hlen]
          | some value =>
            have hge : ¬i.stack.length < 3 := fun hh => by
              rw [hthree.mpr hh] at hp3
              exact Option.noConfusion hp3
            dsimp only
            constructor
            · intro hh
              split_ifs at hh
            · rintro (⟨ha, _⟩ | ⟨_, _, hc⟩ | ⟨ha, _, _⟩)
              · exact absurd ha h1
              · exact absurd hc hge
              · exact absurd ha h3
      · rw [if_neg h2]
        by_cases h3 : i.op = "SSTORE" ∧ s.calls ≠ []
        · rw [if_pos h3]
          have h4 : ¬i.op = "CALL" := by rw [h3.1]; decide
          cases hp : pyGetNeg i.stack 1 with
          | none => simp [h1, h3.1, h3.2, h4, hone.mp hp]
          | some slot =>
            have hne : ¬i.stack = [] := fun hh => by
              rw [hone.mpr hh] at hp
              exact Option.noConfusion hp
            dsimp only
            constructor
            · intro hh
              split_ifs at hh
            · rintro (⟨ha, _⟩ | ⟨ha, _, _⟩ | ⟨_, _, hc⟩)
              · exact absurd ha h1
              · exact absurd ha h4
              · exact absurd hc hne
        · rw [if_neg h3]
          constructor
          · intro hh
            exact Except.noConfusion hh
          · rintro (⟨ha, hb⟩ | ⟨ha, hb, _⟩ | ⟨ha, hb, _⟩)
            · exact absurd ha h1
            · exact absurd ⟨ha, hb⟩ h2
            · exact absurd ⟨ha, hb⟩ h3
  unfold analyzeInstr
  cases hr : reentrancy s i with
  | error e =>
    cases e
    rw [← hiff]
    simp [hr]
  | ok p =>
    have hno : ¬insufficientStack s i := fun hh => by
      rw [← hiff] at hh
      rw [hr] at hh
      exact Except.noConfusion hh
    simp [hno]

/-! ## Claim C6 -/

theorem txOriginMsg_ne_reentrancyMsg : txOriginMsg ≠ reentrancyMsg := by decide

theorem reentrancy_no_calls (s : DetState) (i : Instr)
    (hcalls : s.calls = [])
    (hsafe : i.op = "CALL" → ∀ g v, pyGetNeg i.stack 1 = some g →
      pyGetNeg i.stack 3 = some v → g ≤ 2300 ∨ v = 0) :
    reentrancy s i = .error () ∨
      ∃ s', reentrancy s i = .ok (s', []) ∧ s'.calls = [] := by
  unfold reentrancy
  by_cases h1 : i.op = "SLOAD"
  · rw [if_pos h1]
    cases hp : pyGetNeg i.stack 1 with
    | none => exact Or.inl rfl
    | some slot => exact Or.inr ⟨_, rfl, hcalls⟩
  · rw [if_neg h1]
    by_cases h2 : i.op = "CALL" ∧ s.sloads ≠ []
    · rw [if_pos h2]
      cases hp1 : pyGetNeg i.stack 1 with
      | none => exact Or.inl rfl
      | some gas =>
        cases hp3 : pyGetNeg i.stack 3 with
        | none => exact Or.inl rfl
        | some value =>
          have hcond : ¬(2300 < gas ∧ 0 < value) := by
            rcases hsafe h2.1 gas value hp1 hp3 with hle | hz
            · intro hc; omega
            · intro hc; omega
          dsimp only
          rw [if_neg hcond]
          exact Or.inr ⟨s, rfl, hcalls⟩
    · rw [if_neg h2]
      have h3 : ¬(i.op = "SSTORE" ∧ s.calls ≠ []) := fun hc => hc.2 hcalls
      rw [if_neg h3]
      exact Or.inr ⟨s, rfl, hcalls⟩

theorem runTrace_no_risky_aux (tr : List Instr) (s : DetState)
    (hcalls : s.calls = [])
    (h : ∀ i ∈ tr, i.op = "CALL" → ∀ g v, pyGetNeg i.stack 1 = some g →
      pyGetNeg i.stack 3 = some v → g ≤ 2300 ∨ v = 0) :
    reentrancyMsg ∉ (runTrace s tr).2 := by
  induction tr generalizing s with
  | nil => simp [runTrace]
  | cons i rest ih =>
    rcases reentrancy_no_calls s i hcalls (h i (List.mem_cons_self i rest)) with
      herr | ⟨s', hok, hcalls'⟩
    · have hana : analyzeInstr s i = .error () := by
        unfold analyzeInstr
        rw [herr]
      unfold runTrace
      rw [hana]
      simp
    · have hana : analyzeInstr s i = .ok (s', tx_origin i) := by
        unfold analyzeInstr
        rw [hok]
        simp
      unfold runTrace
      rw [hana]
      dsimp only
      intro hmem
      rcases List.mem_append.mp hmem with hmem1 | hmem2
      · unfold tx_origin at hmem1
        split_ifs at hmem1
        · rcases List.mem_singleton.mp hmem1 with heq
          exact txOriginMsg_ne_reentrancyMsg heq.symm
        · exact absurd hmem1 (List.not_mem_nil _)
      · exact ih s' hcalls' (fun j hj => h j (List.mem_cons_of_mem i hj)) hmem2

/-- Claim C6: on a trace in which every `CALL` instruction carries gas
(top of stack) at most 2300 or value (third from top) equal to zero, the
detector never reports the reentrancy finding, no matter how many storage
reads or writes surround those calls. -/
theorem c6_no_risky_call_no_finding (tr : List Instr)
    (h : ∀ i ∈ tr, i.op = "CALL" → ∀ g v, pyGetNeg i.stack 1 = some g →
      pyGetNeg i.stack 3 = some v → g ≤ 2300 ∨ v = 0) :
    reentrancyMsg ∉ (runTrace detInit tr).2 :=
  runTrace_no_risky_aux tr detInit rfl h

/-- Witness for C6: a trace with a read, a stipend-gas call, a zero-value
call and a write on the read slot yields no reentrancy finding. -/
theorem c6_no_risky_call_no_finding_witness :
    reentrancyMsg ∉ (runTrace detInit [⟨"SLOAD", 10, [1]⟩,
      ⟨"CALL", 20, [5, 7, 2300]⟩, ⟨"CALL", 25, [0, 7, 9000]⟩,
      ⟨"SSTORE", 30, [1]⟩]).2 := by
  apply c6_no_risky_call_no_finding
  intro i hi hop g v hg hv
  simp only [List.mem_cons, List.not_mem_nil, or_false] at hi
  rcases hi with rfl | rfl | rfl | rfl
  · exact absurd hop (by decide)
  · left
    have h2 : (some 2300 : Option Nat) = some g := hg
    injection h2 with h3
    omega
  · right
    have h2 : (some 0 : Option Nat) = some v := hv
    injection h2 with h3
    omega
  · exact absurd hop (by decide)

/-! ## Claim C7 -/

theorem reentrancy_findings_cases (s : DetState) (i : Instr) (s' : DetState)
    (fs : List String) (h : reentrancy s i = .ok (s', fs)) :
    fs = [] ∨ fs = [reentrancyMsg] := by
  unfold reentrancy at h
  by_cases h1 : i.op = "SLOAD"
  · rw [if_pos h1] at h
    cases hp : pyGetNeg i.stack 1 with
    | none => rw [hp] at h; exact Except.noConfusion h
    | some slot =>
      rw [hp] at h
      dsimp only at h
      cases h
      exact Or.inl rfl
  · rw [if_neg h1] at h
    by_cases h2 : i.op = "CALL" ∧ s.sloads ≠ []
    · rw [if_pos h2] at h
      cases hp1 : pyGetNeg i.stack 1 with
      | none => rw [hp1] at h; exact Except.noConfusion h
      | some gas =>
        rw [hp1] at h
        cases hp3 : pyGetNeg i.stack 3 with
        | none => rw [hp3] at h; exact Except.noConfusion h
        | some value =>
          rw [hp3] at h
          dsimp only at h
          split_ifs at h
          all_goals cases h
          · exact Or.inr rfl
          · exact Or.inl rfl
          · exact Or.inl rfl
    · rw [if_neg h2] at h
      by_cases h3 : i.op = "SSTORE" ∧ s.calls ≠ []
      · rw [if_pos h3] at h
        cases hp : pyGetNeg i.stack 1 with
        | none => rw [hp] at h; exact Except.noConfusion h
        | some slot =>
          rw [hp] at h
          dsimp only at h
          split_ifs at h
          all_goals cases h
          · exact Or.inr rfl
          · exact Or.inl rfl
          · exact Or.inl rfl
      · rw [if_neg h3] at h
        cases h
        exact Or.inl rfl

theorem analyzeInstr_origin_count (s : DetState) (i : Instr) (s' : DetState)
    (fs : List String) (h : analyzeInstr s i = .ok (s', fs)) :
    fs.count txOriginMsg = if i.op = "ORIGIN" then 1 else 0 := by
  unfold analyzeInstr at h
  cases hr : reentrancy s i with
  | error e =>
    rw [hr] at h
    exact Except.noConfusion h
  | ok p =>
    obtain ⟨s0, fs0⟩ := p
    rw [hr] at h
    dsimp only at h
    injection h with hpair
    injection hpair with hs hf
    subst hs
    subst hf
    have hcount0 : fs0.count txOriginMsg = 0 := by
      rcases reentrancy_findings_cases s i s0 fs0 hr with rfl | rfl
      · rfl
      · rfl
    rw [List.count_append, hcount0]
    unfold tx_origin
    split_ifs
    · rfl
    · rfl

/-- Claim C7: on every trace that the detector processes to completion, each
occurrence of the `ORIGIN` opcode produces exactly one unsafe-authorization
finding, with no deduplication and independently of the detector state the
trace started from: the number of `ORIGIN` findings equals the number of
`ORIGIN` instructions. -/
theorem c7_origin_count (s : DetState) (tr : List Instr) (s' : DetState)
    (fs : List String) (h : runTrace s tr = (some s', fs)) :
    fs.count txOriginMsg = tr.countP (fun i => decide (i.op = "ORIGIN")) := by
  induction tr generalizing s fs with
  | nil =>
    unfold runTrace at h
    cases h
    rfl
  | cons i rest ih =>
    unfold runTrace at h
    cases ha : analyzeInstr s i with
    | error e =>
      rw [ha] at h
      dsimp only at h
      exact absurd (congrArg Prod.fst h) (by simp)
    | ok p =>
      obtain ⟨s1, fs1⟩ := p
      rw [ha] at h
      dsimp only at h
      cases hrt : runTrace s1 rest with
      | mk r1 fs2 =>
        rw [hrt] at h
        dsimp only at h
        injection h with hfst hsnd
        subst hsnd
        subst hfst
        rw [List.count_append, List.countP_cons,
          analyzeInstr_origin_count s i s1 fs1 ha, ih s1 fs2 hrt]
        simp only [decide_eq_true_eq]
        split_ifs with ho
        · omega
        · omega

/-- Witness for C7: a trace with two `ORIGIN` instructions around a storage
read yields exactly two unsafe-authorization findings. -/
theorem c7_origin_count_witness :
    ([txOriginMsg, txOriginMsg] : List String).count txOriginMsg =
      ([⟨"ORIGIN", 1, []⟩, ⟨"SLOAD", 2, [1]⟩, ⟨"ORIGIN", 3, []⟩] : List Instr).countP
        (fun i => decide (i.op = "ORIGIN")) :=
  c7_origin_count detInit [⟨"ORIGIN", 1, []⟩, ⟨"SLOAD", 2, [1]⟩, ⟨"ORIGIN", 3, []⟩]
    ⟨[(1, 2)], [], false⟩ [txOriginMsg, txOriginMsg] rfl

/-! ## Claim C8 -/

/-- Claim C8: `reset_variables` restores exactly the state of a freshly
constructed detector (empty read map, empty call set, clear latch), from any
reachable state, and therefore processing any trace after a reset produces
the same result — state and findings — as processing it on a brand-new
detector instance. -/
theorem c8_reset_equals_fresh_detector (s : DetState) :
    reset_variables s = detInit ∧
    ∀ tr : List Instr, runTrace (reset_variables s) tr = runTrace detInit tr :=
  ⟨rfl, fun _ => rfl⟩

/-! ## Claim C9 -/

theorem executeCalls_from_init (cs : List CallOutcome) :
    executeCalls detInit cs =
      ((freshCalls cs).1.map fun _ => detInit, (freshCalls cs).2) := by
  induction cs with
  | nil => rfl
  | cons c rest ih =>
    cases c with
    | notMined =>
      unfold executeCalls executeCall freshCalls
      dsimp only
      rw [ih]
      simp
    | reverted =>
      unfold executeCalls executeCall freshCalls
      dsimp only
      rw [ih]
      simp
    | analyzed tr =>
      unfold executeCalls executeCall freshCalls
      dsimp only
      cases hrt : runTrace detInit tr with
      | mk r fs =>
        cases r with
        | none => rfl
        | some s' =>
          dsimp only
          rw [show reset_variables s' = detInit from rfl, ih]

theorem runRound_from_init (smp : Sampler) (ast : Ast) (r : Round) :
    runRound smp ast r detInit =
      ((freshRound smp ast r).1.map fun _ => detInit,
        (freshRound smp ast r).2.1, (freshRound smp ast r).2.2) := by
  unfold runRound freshRound
  cases hs : generate_test_suite smp ast with
  | mk fnsOpt ctor =>
    cases fnsOpt with
    | none =>
      cases hd : r.deploySucceeds with
      | false => simp [hd]
      | true => simp [hd]
    | some fns =>
      cases hd : r.deploySucceeds with
      | false => simp [hd]
      | true =>
        dsimp only
        rw [executeCalls_from_init]
        cases hf : freshCalls ((List.range fns.length).map r.outcome) with
        | mk u fs =>
          cases u with
          | none => simp [hd]
          | some _ => simp [hd]

/-- Claim C9: across the whole orchestrated run, every trace analysis starts
from a pristine detector state — skipped (`notMined`) and reverted calls
leave the detector untouched, and the run as a whole produces exactly the
findings (and chain requests) of re-analyzing every analyzed trace on a
brand-new detector instance, finishing (when no exception is raised)
with the detector back in its initial state. -/
theorem c9_run_is_pristine_per_trace (smp : Sampler) (ast : Ast)
    (rounds : List Round) :
    (∀ s : DetState, executeCall s CallOutcome.notMined = (some s, []) ∧
      executeCall s CallOutcome.reverted = (some s, [])) ∧
    run smp ast rounds =
      ((freshRun smp ast rounds).1.map fun _ => detInit,
        (freshRun smp ast rounds).2) := by
  refine ⟨fun s => ⟨rfl, rfl⟩, ?_⟩
  unfold run
  induction rounds with
  | nil => rfl
  | cons r rest ih =>
    unfold runRounds freshRun
    rw [runRound_from_init]
    cases hf : freshRound smp ast r with
    | mk u p =>
      obtain ⟨fs, evs⟩ := p
      cases u with
      | none => rfl
      | some _ =>
        simp only [Option.map_some']
        rw [ih]

/-! ## Claim C10 -/

/-- Claim C10: an instruction whose opcode is none of `SLOAD`, `CALL`,
`SSTORE`, `ORIGIN` is a no-op for both detector rules: the state is returned
unchanged, no finding is emitted, and no exception is raised. -/
theorem c10_other_opcodes_frame (s : DetState) (i : Instr)
    (h1 : i.op ≠ "SLOAD") (h2 : i.op ≠ "CALL") (h3 : i.op ≠ "SSTORE")
    (h4 : i.op ≠ "ORIGIN") :
    analyzeInstr s i = .ok (s, []) := by
  unfold analyzeInstr reentrancy tx_origin
  rw [if_neg h1, if_neg (fun hc => h2 hc.1), if_neg (fun hc => h3 hc.1)]
  dsimp only
  rw [if_neg h4]
  rfl

/-- Witness for C10: a concrete `ADD` instruction leaves the fresh detector
state untouched and emits nothing. -/
theorem c10_other_opcodes_frame_witness :
    analyzeInstr detInit ⟨"ADD", 7, [1, 2]⟩ = .ok (detInit, []) :=
  c10_other_opcodes_frame detInit ⟨"ADD", 7, [1, 2]⟩ (by decide) (by decide)
    (by decide) (by decide)

end MiniFuzz
